import Mathlib

/-!
Verification of the geometry and parameter-handling logic of
`y branch/opts_0/y_branch_opt_2D.py`.

The script's own logic is embedded over `ℚ` (numpy float arrays become
lists of rationals; all constants are the exact decimal values of the
source, e.g. `0.25e-6 = 1/4000000`).  The cubic spline constructor
`scipy.interpolate.interp1d(points_x, points_y, kind = 'cubic')` is
external library code, not part of this repository, so `splitter` is
parameterized by the interpolator builder `mk : List ℚ → List ℚ → ℚ → ℚ`;
where a claim depends on the interpolation contract (the spline passes
through its knots) that contract appears as an explicit `Interpolates`
hypothesis.
-/

/- Batteries marks the `Rat` field operations `@[irreducible]`, which blocks
the evaluation of concrete rational arithmetic by `decide`; restore the
default reducibility for this development. -/
section

attribute [local semireducible] Rat.add Rat.mul Rat.inv Rat.sub

set_option maxRecDepth 100000

namespace YBranch2D

/-- `np.linspace a b n`: `n` evenly spaced points from `a` to `b`, both
endpoints included (exact in `ℚ`). -/
def linspace (a b : ℚ) (n : ℕ) : List ℚ :=
  (List.range n).map (fun i => a + (b - a) * i / (n - 1))

/-- Minimum of two rationals, spelled out so the kernel can evaluate it. -/
def rmin (a b : ℚ) : ℚ := if a ≤ b then a else b

/-- Maximum of two rationals, spelled out so the kernel can evaluate it. -/
def rmax (a b : ℚ) : ℚ := if a ≤ b then b else a

/-- `np.min` / python `min` on a nonempty array (0 on the empty list,
which the script never produces). -/
def listMin : List ℚ → ℚ
  | [] => 0
  | h :: t => t.foldl rmin h

/-- `np.max` / python `max` on a nonempty array. -/
def listMax : List ℚ → ℚ
  | [] => 0
  | h :: t => t.foldl rmax h

/-- `initial_points_x = np.linspace(-1.0e-6, 1.0e-6, 10)`. -/
def initial_points_x : List ℚ := linspace (-(1/1000000)) (1/1000000) 10

/-- `initial_points_y = np.linspace(0.25e-6, 0.6e-6, initial_points_x.size)`. -/
def initial_points_y : List ℚ := linspace (1/4000000) (3/5000000) 10

/-- `points_x = np.concatenate(([initial_points_x.min() - 0.01e-6], initial_points_x, [initial_points_x.max() + 0.01e-6]))`. -/
def points_x : List ℚ :=
  [listMin initial_points_x - 1/100000000] ++ initial_points_x
    ++ [listMax initial_points_x + 1/100000000]

/-- `points_y = np.concatenate(([initial_points_y.min()], params, [initial_points_y.max()]))`. -/
def points_y (params : List ℚ) : List ℚ :=
  [listMin initial_points_y] ++ params ++ [listMax initial_points_y]

/-- `n_interpolation_points = 100`. -/
def n_interpolation_points : ℕ := 100

/-- `polygon_points_x = np.linspace(min(points_x), max(points_x), n_interpolation_points)`. -/
def polygon_points_x : List ℚ :=
  linspace (listMin points_x) (listMax points_x) n_interpolation_points

/-- `polygon_points_y = interpolator(polygon_points_x)` where
`interpolator = sp.interpolate.interp1d(points_x, points_y, kind = 'cubic')`
is built by the external builder `mk`. -/
def polygon_points_y (mk : List ℚ → List ℚ → ℚ → ℚ) (params : List ℚ) : List ℚ :=
  polygon_points_x.map (mk points_x (points_y params))

/-- `polygon_points_up = [(x, y) for x, y in zip(polygon_points_x, polygon_points_y)]`. -/
def polygon_points_up (mk : List ℚ → List ℚ → ℚ → ℚ) (params : List ℚ) : List (ℚ × ℚ) :=
  polygon_points_x.zip (polygon_points_y mk params)

/-- `polygon_points_down = [(x, -y) for x, y in zip(polygon_points_x, polygon_points_y)]`. -/
def polygon_points_down (mk : List ℚ → List ℚ → ℚ → ℚ) (params : List ℚ) : List (ℚ × ℚ) :=
  (polygon_points_x.zip (polygon_points_y mk params)).map (fun p => (p.1, -p.2))

/-- `splitter(params)`: `np.array(polygon_points_up[::-1] + polygon_points_down)`. -/
def splitter (mk : List ℚ → List ℚ → ℚ → ℚ) (params : List ℚ) : List (ℚ × ℚ) :=
  (polygon_points_up mk params).reverse ++ polygon_points_down mk params

/-- The interpolation contract of `interp1d`: the returned function passes
through every knot it was fit to. -/
def Interpolates (g : ℚ → ℚ) (xs ys : List ℚ) : Prop :=
  ∀ p ∈ xs.zip ys, g p.1 = p.2

/-- A concrete interpolator satisfying `Interpolates` on distinct knots:
returns the tabulated knot value at a knot abscissa and 0 elsewhere.
Used only to instantiate theorems at concrete inputs. -/
def tableInterp (xs ys : List ℚ) (x : ℚ) : ℚ :=
  match (xs.zip ys).find? (fun p => p.1 == x) with
  | some p => p.2
  | none => 0

/-- Executable strict-increase check on a list of rationals. -/
def chainLtB : List ℚ → Bool
  | a :: b :: t => (decide (a < b)) && chainLtB (b :: t)
  | _ => true


/-- The mirroring `(x, y) ↦ (x, -y)` about the axis `y = 0`. -/
def mirrorPt (p : ℚ × ℚ) : ℚ × ℚ := (p.1, -p.2)

/-- Cross product term of two vertices, `p.x * q.y - q.x * p.y`. -/
def cross (p q : ℚ × ℚ) : ℚ := p.1 * q.2 - q.1 * p.2

/-- Sum of cross product terms over consecutive vertices of an open path. -/
def pathCross : List (ℚ × ℚ) → ℚ
  | a :: b :: t => cross a b + pathCross (b :: t)
  | _ => 0

/-- Shoelace signed area (doubled) of a closed polygon given by its vertex
list: the consecutive cross terms plus the closing term from the last
vertex back to the first. -/
def shoelace : List (ℚ × ℚ) → ℚ
  | [] => 0
  | a :: t => pathCross (a :: t) + cross (t.getLastD a) a

/-- Trapezoid sum `Σ (x' - x) * (y + y')` over consecutive vertices; twice
the area under the upper path. -/
def trapSum : List (ℚ × ℚ) → ℚ
  | a :: b :: t => (b.1 - a.1) * (a.2 + b.2) + trapSum (b :: t)
  | _ => 0

/-- The parameter load of lines 74-78 (`try: prev_results =
np.loadtxt('2D_parameters.txt') except: print(...); prev_results =
initial_points_y`).  `some v` models a successful parse with contents `v`,
`none` models any raised exception; the boolean records whether the
fallback notice was printed. -/
def prev_results : Option (List ℚ) → List ℚ × Bool
  | some v => (v, false)
  | none => (initial_points_y, true)

/-- The relative path `'2D_parameters.txt'` of `np.loadtxt`, as components. -/
def load_path : List String := ["2D_parameters.txt"]

/-- The relative path `'../2D_parameters.txt'` of `np.savetxt`, as
components. -/
def save_path : List String := ["..", "2D_parameters.txt"]

/-- Resolution of a relative path against a working directory given as a
component list: `..` drops the last directory, any other component
descends. -/
def resolvePath (cwd : List String) (path : List String) : List String :=
  path.foldl (fun acc c => if c = ".." then acc.dropLast else acc ++ [c]) cwd

/-- The left fixed boundary point of the spec's description: guide end
`x = -1.01e-6` at the input half-width `y = 0.25e-6`. -/
def boundary_left : ℚ × ℚ := (-(101/100000000), 1/4000000)

/-- The right fixed boundary point of the spec's description: guide end
`x = 1.01e-6` at the output half-width `y = 0.6e-6`. -/
def boundary_right : ℚ × ℚ := (101/100000000, 3/5000000)

/-- Spec-side knot list for claim C1: the 10 parameter knots at the fixed
abscissas with the two fixed boundary points appended at the guide ends. -/
def spec_knots (params : List ℚ) : List (ℚ × ℚ) :=
  boundary_left :: (initial_points_x.zip params ++ [boundary_right])

/-- Spec-side resampling grid for claim C1: 100 evenly spaced x positions
spanning the boundary points. -/
def spec_samples : List ℚ := linspace boundary_left.1 boundary_right.1 100

/-- Spec-side curve for claim C1: the interpolating spline fitted through
the 12 knots (the fit itself is the external builder `mk`). -/
def spec_curve (mk : List ℚ → List ℚ → ℚ → ℚ) (params : List ℚ) : ℚ → ℚ :=
  mk ((spec_knots params).map Prod.fst) ((spec_knots params).map Prod.snd)

/-- Spec-side geometry for claim C1, transcribed from the claim's steps:
sample the spline on the grid, mirror about `y = 0`, and concatenate the
reversed upper branch with the lower branch. -/
def splitter_spec (mk : List ℚ → List ℚ → ℚ → ℚ) (params : List ℚ) : List (ℚ × ℚ) :=
  (spec_samples.map (fun x => (x, spec_curve mk params x))).reverse
    ++ spec_samples.map (fun x => (x, -spec_curve mk params x))

/-! ### Helper lemmas -/

theorem chain_lt_of_chainLtB : ∀ {l : List ℚ}, chainLtB l = true → l.Chain' (· < ·)
  | [], _ => List.chain'_nil
  | [_], _ => List.chain'_singleton _
  | a :: b :: t, h => by
    rw [chainLtB, Bool.and_eq_true, decide_eq_true_eq] at h
    exact List.chain'_cons.2 ⟨h.1, chain_lt_of_chainLtB h.2⟩

theorem Interpolates.at_index {g : ℚ → ℚ} {xs ys : List ℚ}
    (h : Interpolates g xs ys) (i : ℕ) (hx : i < xs.length) (hy : i < ys.length) :
    g (xs.get ⟨i, hx⟩) = ys.get ⟨i, hy⟩ := by
  have hi : i < (xs.zip ys).length := by rw [List.length_zip]; omega
  have hm := h ((xs.zip ys).get ⟨i, hi⟩) (List.get_mem _ _ _)
  rwa [List.get_eq_getElem, List.getElem_zip] at hm

theorem zip_self_map (g : ℚ → ℚ) (xs : List ℚ) :
    xs.zip (xs.map g) = xs.map (fun x => (x, g x)) := by
  simpa using List.zip_map' id g xs

theorem up_eq_map (mk : List ℚ → List ℚ → ℚ → ℚ) (params : List ℚ) :
    polygon_points_up mk params
      = polygon_points_x.map (fun x => (x, mk points_x (points_y params) x)) :=
  zip_self_map _ _

theorem down_eq_map_mirror (mk : List ℚ → List ℚ → ℚ → ℚ) (params : List ℚ) :
    polygon_points_down mk params = (polygon_points_up mk params).map mirrorPt :=
  rfl

theorem splitter_eq_mirror (mk : List ℚ → List ℚ → ℚ → ℚ) (params : List ℚ) :
    splitter mk params
      = (polygon_points_up mk params).reverse
          ++ (polygon_points_up mk params).map mirrorPt :=
  rfl

theorem polygon_points_x_length : polygon_points_x.length = 100 := by decide

theorem up_length (mk : List ℚ → List ℚ → ℚ → ℚ) (params : List ℚ) :
    (polygon_points_up mk params).length = 100 := by
  rw [up_eq_map, List.length_map, polygon_points_x_length]

theorem splitter_len (mk : List ℚ → List ℚ → ℚ → ℚ) (params : List ℚ) :
    (splitter mk params).length = 200 := by
  rw [splitter_eq_mirror, List.length_append, List.length_reverse,
    List.length_map, up_length]

theorem lastD_append_cons {α : Type} :
    ∀ (l : List α) (y : α) (ys : List α) (d : α),
      (l ++ y :: ys).getLastD d = ys.getLastD y
  | [], _, _, _ => List.getLastD_cons _ _ _
  | a :: t, y, ys, d => by
    rw [List.cons_append, List.getLastD_cons]
    exact lastD_append_cons t y ys a

theorem pathCross_append :
    ∀ (xs : List (ℚ × ℚ)) (x y : ℚ × ℚ) (ys : List (ℚ × ℚ)),
      pathCross ((x :: xs) ++ y :: ys)
        = pathCross (x :: xs) + cross (xs.getLastD x) y + pathCross (y :: ys)
  | [], x, y, ys => by
    show cross x y + pathCross (y :: ys) = 0 + cross x y + pathCross (y :: ys)
    ring
  | z :: zs, x, y, ys => by
    have ih := pathCross_append zs z y ys
    show cross x z + pathCross ((z :: zs) ++ y :: ys) = _
    rw [ih, List.getLastD_cons]
    show _ = cross x z + pathCross (z :: zs) + cross (zs.getLastD z) y + pathCross (y :: ys)
    ring

theorem pathCross_reverse : ∀ (l : List (ℚ × ℚ)), pathCross l.reverse = -pathCross l
  | [] => by simp [pathCross]
  | [a] => by simp [pathCross]
  | a :: b :: t => by
    have ih := pathCross_reverse (b :: t)
    obtain ⟨r, rs, hr⟩ := List.exists_cons_of_ne_nil (l := (b :: t).reverse) (by simp)
    have hrev : (a :: b :: t).reverse = (r :: rs) ++ [a] := by
      rw [List.reverse_cons, hr]
    have hlast : rs.getLastD r = b := by
      have h1 : ((b :: t).reverse).getLastD a = b := by
        rw [List.reverse_cons]
        exact List.getLastD_concat _ _ _
      rwa [hr, List.getLastD_cons] at h1
    rw [hrev, pathCross_append rs r a [], hlast, ← hr, ih]
    show -pathCross (b :: t) + cross b a + 0 = -(cross a b + pathCross (b :: t))
    simp only [cross]
    ring

theorem pathCross_map_mirror : ∀ (l : List (ℚ × ℚ)), pathCross (l.map mirrorPt) = -pathCross l
  | [] => by simp [pathCross]
  | [a] => by simp [pathCross]
  | a :: b :: t => by
    have ih := pathCross_map_mirror (b :: t)
    show cross (mirrorPt a) (mirrorPt b) + pathCross ((b :: t).map mirrorPt)
      = -(cross a b + pathCross (b :: t))
    rw [ih]
    simp [cross, mirrorPt]
    ring

theorem trapSum_lastD :
    ∀ (t : List (ℚ × ℚ)) (a : ℚ × ℚ),
      trapSum (a :: t)
        = -pathCross (a :: t) + ((t.getLastD a).1 * (t.getLastD a).2 - a.1 * a.2)
  | [], a => by simp [trapSum, pathCross, List.getLastD]
  | b :: ts, a => by
    have ih := trapSum_lastD ts b
    show (b.1 - a.1) * (a.2 + b.2) + trapSum (b :: ts) = _
    rw [ih, List.getLastD_cons]
    show _ = -(cross a b + pathCross (b :: ts)) + _
    simp [cross]
    ring

theorem shoelace_mirror (a : ℚ × ℚ) (t : List (ℚ × ℚ)) :
    shoelace ((a :: t).reverse ++ (a :: t).map mirrorPt) = 2 * trapSum (a :: t) := by
  obtain ⟨r, rs, hr⟩ := List.exists_cons_of_ne_nil (l := (a :: t).reverse) (by simp)
  have hlast : rs.getLastD r = a := by
    have h1 : ((a :: t).reverse).getLastD r = a := by
      rw [List.reverse_cons]
      exact List.getLastD_concat _ _ _
    rwa [hr, List.getLastD_cons] at h1
  have hhead : r = t.getLastD a := by
    have h1 := List.head?_reverse (a :: t)
    rw [hr, List.head?_cons] at h1
    have h2 := List.getLastD_eq_getLast? a (a :: t)
    rw [← h1, List.getLastD_cons] at h2
    exact (h2.symm : _)
  have hmap : (a :: t).map mirrorPt = mirrorPt a :: t.map mirrorPt := rfl
  rw [hmap, hr]
  show shoelace (r :: (rs ++ mirrorPt a :: t.map mirrorPt)) = _
  rw [show shoelace (r :: (rs ++ mirrorPt a :: t.map mirrorPt))
        = pathCross (r :: (rs ++ mirrorPt a :: t.map mirrorPt))
          + cross ((rs ++ mirrorPt a :: t.map mirrorPt).getLastD r) r from rfl]
  rw [lastD_append_cons, List.getLastD_map]
  rw [show pathCross (r :: (rs ++ mirrorPt a :: t.map mirrorPt))
        = pathCross ((r :: rs) ++ mirrorPt a :: t.map mirrorPt) from rfl]
  rw [pathCross_append rs r (mirrorPt a) (t.map mirrorPt), hlast]
  rw [show pathCross (mirrorPt a :: t.map mirrorPt) = pathCross ((a :: t).map mirrorPt) from rfl]
  rw [pathCross_map_mirror, ← hr, pathCross_reverse]
  rw [trapSum_lastD, hhead]
  simp [cross, mirrorPt]
  ring

theorem trapSum_nonneg :
    ∀ (t : List (ℚ × ℚ)) (a : ℚ × ℚ),
      List.Chain' (fun p q => p.1 < q.1) (a :: t) → (∀ p ∈ a :: t, 0 < p.2) →
      0 ≤ trapSum (a :: t)
  | [], _, _, _ => le_of_eq rfl
  | b :: ts, a, hc, hp => by
    have hab : a.1 < b.1 := (List.chain'_cons.1 hc).1
    have ih := trapSum_nonneg ts b (List.chain'_cons.1 hc).2
      (fun p hp' => hp p (List.mem_cons_of_mem _ hp'))
    have ha2 : 0 < a.2 := hp a (by simp)
    have hb2 : 0 < b.2 := hp b (by simp)
    have hterm : 0 < (b.1 - a.1) * (a.2 + b.2) := by
      apply mul_pos <;> linarith
    show 0 ≤ (b.1 - a.1) * (a.2 + b.2) + trapSum (b :: ts)
    linarith

theorem trapSum_pos (a b : ℚ × ℚ) (ts : List (ℚ × ℚ))
    (hc : List.Chain' (fun p q => p.1 < q.1) (a :: b :: ts))
    (hp : ∀ p ∈ a :: b :: ts, 0 < p.2) :
    0 < trapSum (a :: b :: ts) := by
  have hab : a.1 < b.1 := (List.chain'_cons.1 hc).1
  have hrest := trapSum_nonneg ts b (List.chain'_cons.1 hc).2
    (fun p hp' => hp p (List.mem_cons_of_mem _ hp'))
  have ha2 : 0 < a.2 := hp a (by simp)
  have hb2 : 0 < b.2 := hp b (by simp)
  have hterm : 0 < (b.1 - a.1) * (a.2 + b.2) := by
    apply mul_pos <;> linarith
  show 0 < (b.1 - a.1) * (a.2 + b.2) + trapSum (b :: ts)
  linarith

theorem shoelace_mirror_pos (l : List (ℚ × ℚ)) (hlen : 2 ≤ l.length)
    (hc : List.Chain' (fun p q => p.1 < q.1) l) (hp : ∀ p ∈ l, 0 < p.2) :
    0 < shoelace (l.reverse ++ l.map mirrorPt) := by
  obtain ⟨a, l', rfl⟩ := List.exists_cons_of_ne_nil
    (l := l) (by intro h; rw [h] at hlen; simp at hlen)
  obtain ⟨b, t, rfl⟩ := List.exists_cons_of_ne_nil
    (l := l') (by intro h; rw [h] at hlen; simp at hlen)
  rw [shoelace_mirror]
  have := trapSum_pos a b t hc hp
  linarith

theorem mirror_get_low (l : List (ℚ × ℚ)) (i : ℕ) (hi : i < l.length)
    (h : i < (l.reverse ++ l.map mirrorPt).length)
    (hi' : l.length - 1 - i < l.length) :
    (l.reverse ++ l.map mirrorPt).get ⟨i, h⟩ = l.get ⟨l.length - 1 - i, hi'⟩ := by
  rw [List.get_eq_getElem, List.get_eq_getElem]
  rw [List.getElem_append_left (by simpa using hi)]
  exact List.getElem_reverse _

theorem mirror_get_high (l : List (ℚ × ℚ)) (i : ℕ) (h1 : l.length ≤ i)
    (h : i < (l.reverse ++ l.map mirrorPt).length)
    (h2 : i - l.length < l.length) :
    (l.reverse ++ l.map mirrorPt).get ⟨i, h⟩ = mirrorPt (l.get ⟨i - l.length, h2⟩) := by
  rw [List.get_eq_getElem, List.get_eq_getElem]
  rw [List.getElem_append_right (by simpa using h1)]
  simp [List.getElem_map]

theorem mirror_pair (l : List (ℚ × ℚ)) (i : ℕ)
    (h : i < (l.reverse ++ l.map mirrorPt).length)
    (h' : 2 * l.length - 1 - i < (l.reverse ++ l.map mirrorPt).length) :
    ((l.reverse ++ l.map mirrorPt).get ⟨i, h⟩).1
        = ((l.reverse ++ l.map mirrorPt).get ⟨2 * l.length - 1 - i, h'⟩).1
      ∧ ((l.reverse ++ l.map mirrorPt).get ⟨i, h⟩).2
        = -((l.reverse ++ l.map mirrorPt).get ⟨2 * l.length - 1 - i, h'⟩).2 := by
  have hlen : (l.reverse ++ l.map mirrorPt).length = 2 * l.length := by
    simp
    omega
  rw [hlen] at h h'
  by_cases hi : i < l.length
  · have hj : l.length ≤ 2 * l.length - 1 - i := by omega
    have hj2 : 2 * l.length - 1 - i - l.length < l.length := by omega
    rw [mirror_get_low l i hi (by omega) (by omega),
      mirror_get_high l _ hj (by omega) hj2]
    have hidx : 2 * l.length - 1 - i - l.length = l.length - 1 - i := by omega
    simp only [hidx]
    exact ⟨rfl, by simp [mirrorPt]⟩
  · have hi1 : l.length ≤ i := by omega
    have hi2 : i - l.length < l.length := by omega
    have hj : 2 * l.length - 1 - i < l.length := by omega
    have hj2 : l.length - 1 - (2 * l.length - 1 - i) < l.length := by omega
    rw [mirror_get_high l i hi1 (by omega) hi2,
      mirror_get_low l _ hj (by omega) hj2]
    have hidx : l.length - 1 - (2 * l.length - 1 - i) = i - l.length := by omega
    simp only [hidx]
    exact ⟨rfl, by simp [mirrorPt]⟩

theorem up_get (mk : List ℚ → List ℚ → ℚ → ℚ) (params : List ℚ) (j : ℕ)
    (hj : j < (polygon_points_up mk params).length) (hj' : j < polygon_points_x.length) :
    (polygon_points_up mk params).get ⟨j, hj⟩
      = (polygon_points_x.get ⟨j, hj'⟩,
          mk points_x (points_y params) (polygon_points_x.get ⟨j, hj'⟩)) := by
  rw [List.get_eq_getElem, List.get_eq_getElem]
  unfold polygon_points_up polygon_points_y
  rw [List.getElem_zip, List.getElem_map]

/-! ### Claim theorems -/

/-- Claim C2: for every valid 10-element parameter vector within the bounds
`[0.2e-6, 0.8e-6]`, `splitter` returns a closed polygon whose point count
equals `2 * n_interpolation_points`, i.e. exactly 200 points. -/
theorem splitter_point_count (mk : List ℚ → List ℚ → ℚ → ℚ) (params : List ℚ)
    (h10 : params.length = 10)
    (hb : ∀ y ∈ params, 1/5000000 ≤ y ∧ y ≤ 4/5000000) :
    (splitter mk params).length = 2 * n_interpolation_points
      ∧ 2 * n_interpolation_points = 200 :=
  ⟨by rw [splitter_len]; rfl, rfl⟩

/-- Witness for C2 at the default parameter vector and a concrete
interpolator. -/
theorem splitter_point_count_witness :
    (splitter tableInterp initial_points_y).length = 2 * n_interpolation_points :=
  (splitter_point_count tableInterp initial_points_y (by decide) (by decide)).1

/-- Claim C5: if reading the prior-parameters file fails for any reason, the
script prints a notice and uses the default initial parameter vector
`np.linspace(0.25e-6, 0.6e-6, 10)` of length 10; otherwise it uses the
loaded contents. -/
theorem prev_results_fallback_default :
    prev_results none = (initial_points_y, true)
      ∧ initial_points_y = linspace (1/4000000) (3/5000000) 10
      ∧ initial_points_y.length = 10
      ∧ ∀ v : List ℚ, prev_results (some v) = (v, false) :=
  ⟨rfl, rfl, by decide, fun _ => rfl⟩

/-- Counterexample to claim C6: resolved against one and the same working
directory, the path the script reads (`2D_parameters.txt`) and the path it
writes (`../2D_parameters.txt`) denote different files. -/
theorem save_path_differs_from_load_path_ce :
    resolvePath ["home", "user", "opts_0"] save_path
      ≠ resolvePath ["home", "user", "opts_0"] load_path := by
  decide

/-- Amended claim C6: the best parameters are written to
`../2D_parameters.txt`, one directory above the working directory, while the
script reads `2D_parameters.txt` from the working directory itself; a later
run therefore reads the saved file only when its working directory is the
parent of the writing run's working directory, never when both runs share
the same working directory. -/
theorem save_path_resolves_to_parent (cwd : List String) (d : String) :
    resolvePath (cwd ++ [d]) save_path = resolvePath cwd load_path
      ∧ resolvePath (cwd ++ [d]) save_path ≠ resolvePath (cwd ++ [d]) load_path := by
  constructor
  · simp [resolvePath, save_path, load_path, List.dropLast_concat]
  · intro heq
    have hl := congrArg List.length heq
    simp [resolvePath, save_path, load_path, List.dropLast_concat] at hl

/-- Claim C7: every one of the 100 resampled x positions lies within the
closed interval spanned by the spline knots' x coordinates, whose minimum
and maximum are the two fixed boundary abscissas `-1.01e-6` and `1.01e-6`;
the interpolator is therefore never evaluated outside its interpolation
domain. -/
theorem resample_within_knot_span :
    ∀ x ∈ polygon_points_x,
      (listMin points_x ≤ x ∧ x ≤ listMax points_x)
        ∧ listMin points_x = -(101/100000000) ∧ listMax points_x = 101/100000000 := by
  decide

/-- Witness for C7 at the first resampled position. -/
theorem resample_within_knot_span_witness :
    (listMin points_x ≤ -(101/100000000) ∧ (-(101/100000000) : ℚ) ≤ listMax points_x)
      ∧ listMin points_x = -(101/100000000) ∧ listMax points_x = 101/100000000 :=
  resample_within_knot_span (-(101/100000000)) (by decide)

/-- Claim C8: `splitter` is deterministic; two calls on equal inputs return
equal polygon point lists. -/
theorem splitter_deterministic (mk : List ℚ → List ℚ → ℚ → ℚ) (p q : List ℚ)
    (h : p = q) : splitter mk p = splitter mk q := by
  rw [h]

/-- Witness for C8 at the default parameter vector. -/
theorem splitter_deterministic_witness :
    splitter tableInterp initial_points_y = splitter tableInterp initial_points_y :=
  splitter_deterministic tableInterp initial_points_y initial_points_y rfl

/-- Claim C10: parameter loading performs no validation: any successfully
parsed contents become the initial parameter vector as-is — here the list
`[1]`, which has length 1 rather than 10 and whose single value 1 exceeds
the upper bound `0.8e-6` — and the fallback to the defaults is taken
exactly when loading raises. -/
theorem prev_results_no_validation :
    (∀ v : List ℚ, prev_results (some v) = (v, false))
      ∧ prev_results (some [1]) = ([1], false)
      ∧ (¬ ((1 : ℚ) ≤ 4/5000000) ∧ List.length [(1 : ℚ)] ≠ 10)
      ∧ ∀ o : Option (List ℚ), (prev_results o).2 = true ↔ o = none := by
  refine ⟨fun _ => rfl, rfl, ⟨by decide, by decide⟩, ?_⟩
  intro o
  cases o <;> simp [prev_results]

/-- Claim C3: in the polygon returned by `splitter`, point `i` and point
`199 - i` share the same x coordinate and have opposite y coordinates, so
the lower half is the mirror image `y_lower(x) = -y_upper(x)` of the upper
half at every sampled x. -/
theorem splitter_mirror_pairing (mk : List ℚ → List ℚ → ℚ → ℚ) (params : List ℚ)
    (i : ℕ) (h : i < (splitter mk params).length)
    (h' : 199 - i < (splitter mk params).length) :
    ((splitter mk params).get ⟨i, h⟩).1 = ((splitter mk params).get ⟨199 - i, h'⟩).1
      ∧ ((splitter mk params).get ⟨i, h⟩).2
        = -((splitter mk params).get ⟨199 - i, h'⟩).2 :=
  mirror_pair (polygon_points_up mk params) i h h'

/-- Witness for C3 at index 0 with the default parameter vector. -/
theorem splitter_mirror_pairing_witness :
    ((splitter tableInterp initial_points_y).get ⟨0, by decide⟩).1
        = ((splitter tableInterp initial_points_y).get ⟨199 - 0, by decide⟩).1
      ∧ ((splitter tableInterp initial_points_y).get ⟨0, by decide⟩).2
        = -((splitter tableInterp initial_points_y).get ⟨199 - 0, by decide⟩).2 :=
  splitter_mirror_pairing tableInterp initial_points_y 0 (by decide) (by decide)

/-- Claim C4: for a 10-element parameter vector within the bounds
`[0.2e-6, 0.8e-6]`, with the sampled upper-half y values positive, the
polygon returned by `splitter` is ordered counter-clockwise: its shoelace
signed area is positive. -/
theorem splitter_ccw_shoelace_pos (mk : List ℚ → List ℚ → ℚ → ℚ) (params : List ℚ)
    (h10 : params.length = 10)
    (hb : ∀ y ∈ params, 1/5000000 ≤ y ∧ y ≤ 4/5000000)
    (hpos : ∀ x ∈ polygon_points_x, 0 < mk points_x (points_y params) x) :
    0 < shoelace (splitter mk params) := by
  rw [splitter_eq_mirror]
  apply shoelace_mirror_pos
  · rw [up_length]
    omega
  · rw [up_eq_map]
    refine (List.chain'_map _).2 ?_
    have hx := chain_lt_of_chainLtB (l := polygon_points_x) (by decide)
    simpa using hx
  · rw [up_eq_map]
    intro p hp'
    obtain ⟨x, hx', rfl⟩ := List.mem_map.1 hp'
    exact hpos x hx'

/-- Witness for C4 with a constant positive interpolator at the default
parameter vector. -/
theorem splitter_ccw_shoelace_pos_witness :
    0 < shoelace (splitter (fun _ _ _ => (1 : ℚ)) initial_points_y) :=
  splitter_ccw_shoelace_pos (fun _ _ _ => 1) initial_points_y (by decide) (by decide)
    (fun _ _ => one_pos)

theorem get_idx_congr {α : Type} (L : List α) {i j : ℕ} (h : i = j)
    (hi : i < L.length) (hj : j < L.length) : L.get ⟨i, hi⟩ = L.get ⟨j, hj⟩ := by
  subst h
  rfl

/-- Claim C1: for every 10-element parameter vector and every interpolator
builder, `splitter` computes its output by the spec's steps: append the two
fixed boundary points at the guide ends, fit the interpolating spline
through the 12 resulting points, resample it at 100 evenly spaced x
positions spanning the boundary points, mirror about `y = 0`, and
concatenate the reversed upper branch with the lower branch
(`splitter_spec`). -/
theorem splitter_follows_spec_steps (mk : List ℚ → List ℚ → ℚ → ℚ)
    (params : List ℚ) (h10 : params.length = 10) :
    splitter mk params = splitter_spec mk params := by
  have hfst : (initial_points_x.zip params).map Prod.fst = initial_points_x :=
    List.map_fst_zip _ _ (by rw [h10]; decide)
  have hsnd : (initial_points_x.zip params).map Prod.snd = params :=
    List.map_snd_zip _ _ (by rw [h10]; decide)
  have c1 : listMin initial_points_x - 1/100000000 = -(101/100000000 : ℚ) := by decide
  have c2 : listMax initial_points_x + 1/100000000 = (101/100000000 : ℚ) := by decide
  have c3 : listMin initial_points_y = (1/4000000 : ℚ) := by decide
  have c4 : listMax initial_points_y = (3/5000000 : ℚ) := by decide
  have hknots_x : (spec_knots params).map Prod.fst = points_x := by
    unfold spec_knots points_x boundary_left boundary_right
    rw [List.map_cons, List.map_append, hfst, c1, c2]
    simp
  have hknots_y : (spec_knots params).map Prod.snd = points_y params := by
    unfold spec_knots points_y boundary_left boundary_right
    rw [List.map_cons, List.map_append, hsnd, c3, c4]
    simp
  have hsamples : spec_samples = polygon_points_x := by
    have d1 : listMin points_x = -(101/100000000 : ℚ) := by decide
    have d2 : listMax points_x = (101/100000000 : ℚ) := by decide
    unfold spec_samples polygon_points_x boundary_left boundary_right n_interpolation_points
    rw [d1, d2]
  have hcurve : spec_curve mk params = mk points_x (points_y params) := by
    unfold spec_curve
    rw [hknots_x, hknots_y]
  unfold splitter splitter_spec
  rw [hcurve, hsamples, down_eq_map_mirror, up_eq_map, List.map_map]
  rfl

/-- Witness for C1 at the default parameter vector and a concrete
interpolator. -/
theorem splitter_follows_spec_steps_witness :
    initial_points_y.length = 10
      ∧ splitter tableInterp initial_points_y = splitter_spec tableInterp initial_points_y :=
  ⟨by decide, splitter_follows_spec_steps tableInterp initial_points_y (by decide)⟩

/-- Counterexample to claim C9: with a knot-faithful interpolator and the
default parameters, the first sampled point of the lower half — polygon
index 100 — has y coordinate `-0.25e-6`, whose magnitude is `0.25e-6` and
not `0.6e-6` as the claim states for the first point of each half. -/
theorem lower_half_first_point_ce :
    ((splitter tableInterp initial_points_y).get ⟨100, by decide⟩).2 = -(1/4000000)
      ∧ ((-(1/4000000) : ℚ) ≠ 3/5000000 ∧ (-(1/4000000) : ℚ) ≠ -(3/5000000)) := by
  refine ⟨by decide, by decide, by decide⟩

/-- Amended claim C9: the boundary knots appended by `splitter` always use
the fixed values `y = 0.25e-6` at `x = -1.01e-6` and `y = 0.6e-6` at
`x = 1.01e-6` regardless of the parameters, so — for any interpolator that
passes through its knots — the upper half of the polygon starts at
`(1.01e-6, 0.6e-6)` and ends at `(-1.01e-6, 0.25e-6)`, while the lower half
starts at `(-1.01e-6, -0.25e-6)` and ends at `(1.01e-6, -0.6e-6)`: the
first and last points of each half have magnitudes `0.6e-6` and `0.25e-6`
for the upper half and `0.25e-6` and `0.6e-6` for the lower half. -/
theorem splitter_fixed_boundary_values (mk : List ℚ → List ℚ → ℚ → ℚ)
    (params : List ℚ) (h10 : params.length = 10)
    (hint : Interpolates (mk points_x (points_y params)) points_x (points_y params))
    (h0 : 0 < (splitter mk params).length)
    (h99 : 99 < (splitter mk params).length)
    (h100 : 100 < (splitter mk params).length)
    (h199 : 199 < (splitter mk params).length) :
    (splitter mk params).get ⟨0, h0⟩ = (101/100000000, 3/5000000)
      ∧ (splitter mk params).get ⟨99, h99⟩ = (-(101/100000000), 1/4000000)
      ∧ (splitter mk params).get ⟨100, h100⟩ = (-(101/100000000), -(1/4000000))
      ∧ (splitter mk params).get ⟨199, h199⟩ = (101/100000000, -(3/5000000)) := by
  have hylen : (points_y params).length = 12 := by
    simp [points_y, h10]
  have hx0 : points_x.get ⟨0, by decide⟩ = -(101/100000000 : ℚ) := by decide
  have hx11 : points_x.get ⟨11, by decide⟩ = (101/100000000 : ℚ) := by decide
  have hleft : mk points_x (points_y params) (-(101/100000000)) = 1/4000000 := by
    have h := hint.at_index 0 (by decide) (by rw [hylen]; omega)
    rw [hx0] at h
    rw [h]
    show listMin initial_points_y = (1/4000000 : ℚ)
    decide
  have hright : mk points_x (points_y params) (101/100000000) = 3/5000000 := by
    have h := hint.at_index 11 (by decide) (by rw [hylen]; omega)
    rw [hx11] at h
    rw [h, List.get_eq_getElem]
    unfold points_y
    rw [List.getElem_append_right (by simp [h10])]
    simp [h10]
    decide
  have hxs0 : polygon_points_x.get ⟨0, by decide⟩ = -(101/100000000 : ℚ) := by decide
  have hxs99 : polygon_points_x.get ⟨99, by decide⟩ = (101/100000000 : ℚ) := by decide
  have hup0 : (polygon_points_up mk params).get ⟨0, by rw [up_length]; omega⟩
      = (-(101/100000000), 1/4000000) := by
    rw [up_get mk params 0 (by rw [up_length]; omega) (by rw [polygon_points_x_length]; omega)]
    rw [hxs0, hleft]
  have hup99 : (polygon_points_up mk params).get ⟨99, by rw [up_length]; omega⟩
      = (101/100000000, 3/5000000) := by
    rw [up_get mk params 99 (by rw [up_length]; omega) (by rw [polygon_points_x_length]; omega)]
    rw [hxs99, hright]
  refine ⟨?_, ?_, ?_, ?_⟩
  · have e := mirror_get_low (polygon_points_up mk params) 0
      (by rw [up_length]; omega) h0 (by rw [up_length]; omega)
    exact e.trans ((get_idx_congr _ (by rw [up_length]) _ _).trans hup99)
  · have e := mirror_get_low (polygon_points_up mk params) 99
      (by rw [up_length]; omega) h99 (by rw [up_length]; omega)
    exact e.trans ((get_idx_congr _ (by rw [up_length]) _ _).trans hup0)
  · have e := mirror_get_high (polygon_points_up mk params) 100
      (by rw [up_length]) h100 (by rw [up_length]; omega)
    exact e.trans (congrArg mirrorPt ((get_idx_congr _ (by rw [up_length]) _ _).trans hup0))
  · have e := mirror_get_high (polygon_points_up mk params) 199
      (by rw [up_length]; omega) h199 (by rw [up_length]; omega)
    exact e.trans (congrArg mirrorPt ((get_idx_congr _ (by rw [up_length]) _ _).trans hup99))

/-- Witness for the amended C9 at the default parameter vector and the
knot-faithful concrete interpolator. -/
theorem splitter_fixed_boundary_values_witness :
    (splitter tableInterp initial_points_y).get ⟨0, by decide⟩ = (101/100000000, 3/5000000)
      ∧ (splitter tableInterp initial_points_y).get ⟨99, by decide⟩
          = (-(101/100000000), 1/4000000)
      ∧ (splitter tableInterp initial_points_y).get ⟨100, by decide⟩
          = (-(101/100000000), -(1/4000000))
      ∧ (splitter tableInterp initial_points_y).get ⟨199, by decide⟩
          = (101/100000000, -(3/5000000)) :=
  splitter_fixed_boundary_values tableInterp initial_points_y (by decide)
    (by unfold Interpolates; decide) (by decide) (by decide) (by decide) (by decide)

end YBranch2D

end
